import Mathlib

/-!
# Shopify payment app — deferred-capture scheduler, shallow embedding

This file embeds the two in-process schedulers of the repository and the
flag/transaction helpers of the Shopify service, and proves or refutes the
frozen claims about them.

Embedded source:
* `PaymentScheduler` (node-schedule based; Map registry keyed by
  "payment_capture_" ++ orderId, plus a pendingOrders Set) — operations
  `schedulePayment`, `cancelScheduledPayment`, and the one-shot job callback.
* `ShopifyService`'s setTimeout-based scheduler — `schedulePaymentCapture`,
  `removeScheduledJob`, `getScheduledJobs`, and the once-per-minute overdue
  sweep installed by `startScheduler`.
* `ShopifyService.hasFlag`, `getAuthorizedTransaction`,
  `capturePaymentImmediately`.

Timing and the JS event loop are modelled as an explicit event sequence: a
schedule call, a clock advance, a one-shot timer firing, a sweep tick, and the
asynchronous resolution (success or failure) of an in-flight capture network
call are each one event; a step function applies an event to the state.  The
capture capability is external: each invocation is recorded in a log, and its
outcome is chosen by the environment through the resolution events.
-/

namespace ShopifyPayment

/-! ## Association-list Map and Set helpers (JS Map/Set semantics)

A JS Map holds at most one entry per key; `mapSet` replaces the entry of an
existing key and appends otherwise, `mapDelete` removes the key's entry,
`regLookup` is Map.get.  A JS Set is modelled as a duplicate-free list with
`setAdd`. -/

def regLookup (m : List (String × Nat)) (k : String) : Option Nat :=
  match m with
  | [] => none
  | (k1, v) :: rest => if k1 = k then some v else regLookup rest k

def mapSet (m : List (String × Nat)) (k : String) (v : Nat) : List (String × Nat) :=
  match m with
  | [] => [(k, v)]
  | (k1, v1) :: rest => if k1 = k then (k, v) :: rest else (k1, v1) :: mapSet rest k v

def mapDelete (m : List (String × Nat)) (k : String) : List (String × Nat) :=
  match m with
  | [] => []
  | (k1, v1) :: rest => if k1 = k then mapDelete rest k else (k1, v1) :: mapDelete rest k

def keyCount (m : List (String × Nat)) (k : String) : Nat :=
  match m with
  | [] => 0
  | (k1, _) :: rest => (if k1 = k then 1 else 0) + keyCount rest k

def setAdd (l : List String) (x : String) : List String :=
  if x ∈ l then l else l ++ [x]


/-! ## ShopifyService's setTimeout-based scheduler (services file with
`schedulePaymentCapture`, `removeScheduledJob`, `getScheduledJobs`,
`startScheduler`)

State of the scheduler: the `scheduledJobs` array, the clock (`now`, in ms),
the in-flight capture calls (promises not yet resolved), and a log of every
invocation of the capture capability.  Each job records the fields of the JS
job object: `orderId`, `transactionId`, `scheduledTime`; `jobIdSet` models
the truthiness of `job.jobId` (set to the setTimeout handle right after
creation and never nulled afterwards — `clearTimeout` does not null it);
`timerPending` models whether the one-shot timeout is still armed (false once
it fired or was cleared).  `fireAt` is the earliest instant the timeout can
fire: scheduling time + delay, clamped below at the scheduling time, since
`setTimeout` with a negative delay fires immediately. -/

structure SvcJob where
  uid : Nat
  orderId : String
  transactionId : String
  scheduledTime : Int
  fireAt : Int
  timerPending : Bool
  jobIdSet : Bool
deriving DecidableEq

structure PendingCapture where
  juid : Nat
  orderId : String
  transactionId : String
deriving DecidableEq

structure CaptureCall where
  juid : Nat
  orderId : String
  transactionId : String
deriving DecidableEq

structure JobSummary where
  orderId : String
  scheduledTime : Int
  timeLeftMs : Int
deriving DecidableEq

structure SvcState where
  now : Int
  jobs : List SvcJob
  nextUid : Nat
  pending : List PendingCapture
  captureLog : List CaptureCall
deriving DecidableEq

def svcInit : SvcState :=
  { now := 0, jobs := [], nextUid := 0, pending := [], captureLog := [] }

/-- The sweep's guard on a job: `job.scheduledTime <= now && job.jobId`. -/
def isDue (now : Int) (j : SvcJob) : Bool :=
  decide (j.scheduledTime ≤ now) && j.jobIdSet

/-- The job object a `schedulePaymentCapture` call builds:
`scheduledTime = Date.now() + delay`, a freshly armed timeout whose handle
is stored in `jobId` right away. -/
def newCaptureJob (s : SvcState) (orderId transactionId : String)
    (delay : Int) : SvcJob :=
  { uid := s.nextUid, orderId := orderId, transactionId := transactionId,
    scheduledTime := s.now + delay, fireAt := s.now + max delay 0,
    timerPending := true, jobIdSet := true }

/-- Source `schedulePaymentCapture(orderId, transactionId, delay)`: builds the job
object with `scheduledTime = Date.now() + delay`, arms a one-shot timeout and
pushes the job onto `scheduledJobs`.  No lookup or cancellation of an
existing job for the same order is performed. -/
def schedulePaymentCapture (s : SvcState) (orderId transactionId : String)
    (delay : Int) : SvcState :=
  { s with
    jobs := s.jobs ++ [newCaptureJob s orderId transactionId delay],
    nextUid := s.nextUid + 1 }

/-- Source `removeScheduledJob(orderId)`: clear the timeout of the first job with
this orderId and splice it out of the array. -/
def removeScheduledJob (jobs : List SvcJob) (orderId : String) : List SvcJob :=
  jobs.eraseP (fun j => decide (j.orderId = orderId))

/-- Source `getScheduledJobs()`: one summary per array entry, with
`timeLeft = job.scheduledTime - Date.now()` (no clamping).  The cosmetic
"Xm Ys" display string derived from the same difference is omitted. -/
def getScheduledJobs (s : SvcState) : List JobSummary :=
  s.jobs.map fun j =>
    { orderId := j.orderId, scheduledTime := j.scheduledTime,
      timeLeftMs := j.scheduledTime - s.now }

/-- One scheduler event: a `schedulePaymentCapture` call, the clock
advancing, a job's one-shot timeout callback running, one tick of the
once-per-minute overdue sweep from `startScheduler`, or the asynchronous
resolution (success / failure) of the first in-flight capture call of a
given job. -/
inductive SvcEvent where
  | schedule (orderId transactionId : String) (delay : Int)
  | advance (d : Nat)
  | timerFire (uid : Nat)
  | sweep
  | captureOk (uid : Nat)
  | captureFail (uid : Nat)

/-- Apply one event to the scheduler state.

* `timerFire uid`: the timeout callback of job `uid` runs.  It can only run
  if the timeout is still armed and its due instant has passed; it invokes
  `capturePayment(orderId, transactionId)` (recorded in the log, left in
  flight) — the `removeScheduledJob` on success / swallow on failure happens
  when the promise resolves (`captureOk` / `captureFail`).
* `sweep`: the `setInterval` body: for every job with
  `scheduledTime <= now && job.jobId`, `clearTimeout(job.jobId)` (the armed
  flag is dropped, the handle itself stays truthy) and `capturePayment` is
  invoked; its `.then` / `.catch` resolution is again a later event.
* `captureOk uid`: the earliest in-flight capture of job `uid` resolves
  successfully; the continuation runs `removeScheduledJob(orderId)`.
* `captureFail uid`: it rejects; the continuation only logs the error. -/
def svcStep (s : SvcState) (e : SvcEvent) : SvcState :=
  match e with
  | .schedule oid tx d => schedulePaymentCapture s oid tx d
  | .advance d => { s with now := s.now + d }
  | .timerFire uid =>
    match s.jobs.find? (fun j => decide (j.uid = uid)) with
    | some j =>
      if j.timerPending && decide (j.fireAt ≤ s.now) then
        { s with
          jobs := s.jobs.map (fun j1 =>
            if j1.uid = uid then { j1 with timerPending := false } else j1),
          pending := s.pending ++ [⟨j.uid, j.orderId, j.transactionId⟩],
          captureLog := s.captureLog ++ [⟨j.uid, j.orderId, j.transactionId⟩] }
      else s
    | none => s
  | .sweep =>
    { s with
      jobs := s.jobs.map (fun j =>
        if isDue s.now j then { j with timerPending := false } else j),
      pending := s.pending ++ (s.jobs.filter (isDue s.now)).map
        (fun j => ⟨j.uid, j.orderId, j.transactionId⟩),
      captureLog := s.captureLog ++ (s.jobs.filter (isDue s.now)).map
        (fun j => ⟨j.uid, j.orderId, j.transactionId⟩) }
  | .captureOk uid =>
    match s.pending.find? (fun c => decide (c.juid = uid)) with
    | some c =>
      { s with
        pending := s.pending.eraseP (fun c1 => decide (c1.juid = uid)),
        jobs := removeScheduledJob s.jobs c.orderId }
    | none => s
  | .captureFail uid =>
    { s with pending := s.pending.eraseP (fun c1 => decide (c1.juid = uid)) }

def svcRun (s : SvcState) (es : List SvcEvent) : SvcState :=
  es.foldl svcStep s

/-! ## PaymentScheduler (node-schedule based scheduler service)

State: the `scheduledJobs` Map from jobId = "payment_capture_" ++ orderId to
a node-schedule job handle, the `pendingOrders` Set, and — to talk about the
handles a schedule call has cancelled — an arena of every handle ever
created, identified by a fresh uid (the Map stores the uid of the current
handle).  A handle records the order it will capture for, whether `cancel()`
has been called on it, and whether its one-shot callback has already run.
`captureDate` is kept for fidelity; the callback-firing event is not gated
on the clock (an over-approximation: every invariant proved over these
traces holds in particular for the real time-respecting ones).
node-schedule's `scheduleJob` is modelled as always producing a fresh armed
handle.  Captures invoked by callbacks are recorded as (uid, orderId). -/

structure PSJob where
  uid : Nat
  orderId : String
  captureDate : Int
  cancelled : Bool
  fired : Bool
deriving DecidableEq

structure PSState where
  registry : List (String × Nat)
  arena : List PSJob
  pendingOrders : List String
  nextUid : Nat
  captures : List (Nat × String)
deriving DecidableEq

def psInit : PSState :=
  { registry := [], arena := [], pendingOrders := [], nextUid := 0, captures := [] }

def mkJobId (orderId : String) : String :=
  "payment_capture_" ++ orderId

/-- Source `schedulePayment(orderId, captureDate)`: if the Map already holds a job
under this jobId, call `cancel()` on that handle (the Map entry itself is
simply overwritten by the subsequent `set`); then create the new
node-schedule job, store it under the jobId, and add the order to
`pendingOrders`.  Returns the jobId.  No validation of the arguments is
performed by the source. -/
def schedulePayment (s : PSState) (orderId : String) (captureDate : Int) :
    String × PSState :=
  let jobId := mkJobId orderId
  let arena1 :=
    match regLookup s.registry jobId with
    | some uid =>
      s.arena.map (fun j => if j.uid = uid then { j with cancelled := true } else j)
    | none => s.arena
  (jobId,
   { s with
     arena := arena1 ++ [{ uid := s.nextUid, orderId := orderId,
                           captureDate := captureDate,
                           cancelled := false, fired := false }],
     registry := mapSet s.registry jobId s.nextUid,
     pendingOrders := setAdd s.pendingOrders orderId,
     nextUid := s.nextUid + 1 })

/-- Source `cancelScheduledPayment(orderId)`: if the Map holds a job under the
jobId, cancel the handle, delete the Map entry and the pendingOrders entry
and return true; otherwise return false and touch nothing. -/
def cancelScheduledPayment (s : PSState) (orderId : String) : Bool × PSState :=
  let jobId := mkJobId orderId
  match regLookup s.registry jobId with
  | some uid =>
    (true,
     { s with
       arena := s.arena.map (fun j => if j.uid = uid then { j with cancelled := true } else j),
       registry := mapDelete s.registry jobId,
       pendingOrders := s.pendingOrders.filter (fun o => decide (¬ o = orderId)) })
  | none => (false, s)

/-- The scheduled callback of handle `uid` runs: only a handle that was
neither cancelled nor already fired can run; it invokes
`capturePaymentForOrder(orderId)` (recorded) and awaits it. -/
def psFire (s : PSState) (uid : Nat) : PSState :=
  match s.arena.find? (fun j => decide (j.uid = uid)) with
  | some j =>
    if j.cancelled || j.fired then s
    else
      { s with
        arena := s.arena.map (fun j1 =>
          if j1.uid = uid then { j1 with fired := true } else j1),
        captures := s.captures ++ [(j.uid, j.orderId)] }
  | none => s

/-- The capture awaited by handle `uid`'s callback resolved successfully:
the callback continues with `scheduledJobs.delete(jobId)` and
`pendingOrders.delete(orderId)`.  On failure the catch branch only logs, so
no event is needed for it (state unchanged). -/
def psFireDone (s : PSState) (uid : Nat) : PSState :=
  match s.arena.find? (fun j => decide (j.uid = uid)) with
  | some j =>
    { s with
      registry := mapDelete s.registry (mkJobId j.orderId),
      pendingOrders := s.pendingOrders.filter (fun o => decide (¬ o = j.orderId)) }
  | none => s

inductive PSOp where
  | schedule (orderId : String) (captureDate : Int)
  | cancel (orderId : String)
  | fire (uid : Nat)
  | fireDone (uid : Nat)

def psStep (s : PSState) (op : PSOp) : PSState :=
  match op with
  | .schedule oid d => (schedulePayment s oid d).2
  | .cancel oid => (cancelScheduledPayment s oid).2
  | .fire uid => psFire s uid
  | .fireDone uid => psFireDone s uid

def psRun (s : PSState) (ops : List PSOp) : PSState :=
  ops.foldl psStep s

/-! ## String.includes — JS substring containment

`hay.includes(needle)` is true iff needle occurs contiguously in hay.
`startsWithL n h` is the character-list version of "h starts with n";
`listIsSegment n h` scans every suffix of h.  `SegmentOf` is the
specification-level predicate the Bool is proved equivalent to. -/

def startsWithL : List Char → List Char → Bool
  | [], _ => true
  | _ :: _, [] => false
  | a :: as, b :: bs => decide (a = b) && startsWithL as bs

def listIsSegment : List Char → List Char → Bool
  | needle, [] => startsWithL needle []
  | needle, b :: rest => startsWithL needle (b :: rest) || listIsSegment needle rest

def strIncludes (hay needle : String) : Bool :=
  listIsSegment needle.toList hay.toList

def SegmentOf (needle hay : List Char) : Prop :=
  ∃ l r, hay = l ++ (needle ++ r)

/-! ## ShopifyService.hasFlag

The order object: each of the four flag locations may be absent
(undefined); `tags` is a string whose JS truthiness (non-emptiness) is
checked before the `includes` call.  An absent field and an empty-string
`tags` both skip their check; an empty attributes array passes the JS
truthiness test but its `find` returns nothing either way. -/

structure NoteAttr where
  name : String
  value : String
deriving DecidableEq

structure KeyedAttr where
  key : String
  value : String
deriving DecidableEq

structure Order where
  note_attributes : Option (List NoteAttr)
  metafields : Option (List KeyedAttr)
  tags : Option String
  custom_attributes : Option (List KeyedAttr)
deriving DecidableEq

/-- The `note_attributes` check: `attr.name === 'payment_flag' && attr.value === flagName`. -/
def noteAttrCheck (l : Option (List NoteAttr)) (flagName : String) : Bool :=
  match l with
  | some attrs =>
    (attrs.find? (fun a => decide (a.name = "payment_flag") && decide (a.value = flagName))).isSome
  | none => false

/-- The `metafields` / `custom_attributes` check:
`meta.key === 'payment_flag' && meta.value === flagName`. -/
def keyedAttrCheck (l : Option (List KeyedAttr)) (flagName : String) : Bool :=
  match l with
  | some attrs =>
    (attrs.find? (fun a => decide (a.key = "payment_flag") && decide (a.value = flagName))).isSome
  | none => false

/-- The `tags` check: `order.tags && order.tags.includes(flagName)`. -/
def tagsCheck (t : Option String) (flagName : String) : Bool :=
  match t with
  | some tags => decide (¬ tags = "") && strIncludes tags flagName
  | none => false

/-- Source `hasFlag(order, flagName)`: null-guard, then the four early-return
checks in source order (note attributes, metafields, tags, custom
attributes); reaching the end returns false. -/
def hasFlag (order : Option Order) (flagName : String) : Bool :=
  match order with
  | none => false
  | some o =>
    noteAttrCheck o.note_attributes flagName ||
    keyedAttrCheck o.metafields flagName ||
    tagsCheck o.tags flagName ||
    keyedAttrCheck o.custom_attributes flagName

/-- Specification predicate: the flag is present in note_attributes. -/
def FlagInNoteAttributes (o : Order) (f : String) : Prop :=
  ∃ a, a ∈ o.note_attributes.getD [] ∧ a.name = "payment_flag" ∧ a.value = f

/-- Specification predicate: the flag is present in metafields. -/
def FlagInMetafields (o : Order) (f : String) : Prop :=
  ∃ m, m ∈ o.metafields.getD [] ∧ m.key = "payment_flag" ∧ m.value = f

/-- Specification predicate: the flag is present in the (non-empty) tags
string, as a contiguous substring — JS String.includes semantics. -/
def FlagInTags (o : Order) (f : String) : Prop :=
  ∃ t, o.tags = some t ∧ ¬ t = "" ∧ SegmentOf f.toList t.toList

/-- Specification predicate: the flag is present in custom_attributes. -/
def FlagInCustomAttributes (o : Order) (f : String) : Prop :=
  ∃ a, a ∈ o.custom_attributes.getD [] ∧ a.key = "payment_flag" ∧ a.value = f

/-! ## getAuthorizedTransaction / capturePaymentImmediately

The platform client is the environment: `transactionsResult` is what
`getOrderTransactions(orderId)` would produce (a transaction list, or a
thrown error such as a 403 permission denial), `captureResult` is what
`capturePayment(orderId, transactionId)` would produce.  A transaction's
`parent_id` is `none` when the field is null/undefined; the source's
`!t.parent_id` test is modelled as `parent_id = none` (transaction ids are
nonzero).  `capturePaymentImmediately` reports its result and the number of
capture calls it made. -/

structure Tx where
  id : Nat
  kind : String
  status : String
  parent_id : Option Nat
deriving DecidableEq

structure ShopifyEnv where
  transactionsResult : String → Except String (List Tx)
  captureResult : String → Nat → Except String Tx

def getOrderTransactions (env : ShopifyEnv) (orderId : String) :
    Except String (List Tx) :=
  env.transactionsResult orderId

/-- Source `getAuthorizedTransaction(orderId)`: fetch the transactions and find a
successful, uncaptured authorization; any fetch error is caught and turned
into null. -/
def getAuthorizedTransaction (env : ShopifyEnv) (orderId : String) : Option Tx :=
  match getOrderTransactions env orderId with
  | .error _ => none
  | .ok txs =>
    txs.find? (fun t => decide (t.kind = "authorization") &&
      decide (t.status = "success") && decide (t.parent_id = none))

structure CaptureOutcome where
  result : Except String (Option Tx)
  captureCalls : Nat

/-- Source `capturePaymentImmediately(orderId)`: null authorized transaction means
return null without calling capture; otherwise call capture once,
propagating its error (the catch logs and rethrows). -/
def capturePaymentImmediately (env : ShopifyEnv) (orderId : String) :
    CaptureOutcome :=
  match getAuthorizedTransaction env orderId with
  | none => { result := .ok none, captureCalls := 0 }
  | some t =>
    match env.captureResult orderId t.id with
    | .ok tx => { result := .ok (some tx), captureCalls := 1 }
    | .error e => { result := .error e, captureCalls := 1 }

end ShopifyPayment

namespace ShopifyPayment

/-! ## Helper lemmas -/

theorem regLookup_mem {m : List (String × Nat)} {k : String} {v : Nat}
    (h : regLookup m k = some v) : (k, v) ∈ m := by
  induction m with
  | nil => simp [regLookup] at h
  | cons p rest ih =>
    obtain ⟨k1, v1⟩ := p
    by_cases hk : k1 = k
    · subst hk
      simp [regLookup] at h
      simp [h]
    · simp [regLookup, hk] at h
      exact List.mem_cons_of_mem _ (ih h)

theorem regLookup_mapSet_self (m : List (String × Nat)) (k : String) (v : Nat) :
    regLookup (mapSet m k v) k = some v := by
  induction m with
  | nil => simp [mapSet, regLookup]
  | cons p rest ih =>
    obtain ⟨k1, v1⟩ := p
    by_cases hk : k1 = k
    · subst hk; simp [mapSet, regLookup]
    · simp [mapSet, regLookup, hk, ih]

theorem keyCount_mapSet_ne {m : List (String × Nat)} {k k1 : String} (v : Nat)
    (h : ¬ k1 = k) : keyCount (mapSet m k v) k1 = keyCount m k1 := by
  induction m with
  | nil =>
    have h2 : ¬ k = k1 := fun hc => h hc.symm
    simp [mapSet, keyCount, h2]
  | cons p rest ih =>
    obtain ⟨k2, v2⟩ := p
    by_cases hk : k2 = k
    · subst hk
      simp [mapSet, keyCount]
    · simp [mapSet, keyCount, hk, ih]

theorem keyCount_mapSet_self {m : List (String × Nat)} {k : String} (v : Nat)
    (h : keyCount m k ≤ 1) : keyCount (mapSet m k v) k ≤ 1 := by
  induction m with
  | nil => simp [mapSet, keyCount]
  | cons p rest ih =>
    obtain ⟨k1, v1⟩ := p
    by_cases hk : k1 = k
    · subst hk
      simp only [mapSet, if_pos rfl, keyCount] at h ⊢
      omega
    · simp only [mapSet, if_neg hk, keyCount] at h ⊢
      have := ih (by omega)
      omega

theorem keyCount_mapDelete_le (m : List (String × Nat)) (k k1 : String) :
    keyCount (mapDelete m k) k1 ≤ keyCount m k1 := by
  induction m with
  | nil => simp [mapDelete, keyCount]
  | cons p rest ih =>
    obtain ⟨k2, v2⟩ := p
    by_cases hk : k2 = k
    · simp only [mapDelete, if_pos hk, keyCount]
      omega
    · simp only [mapDelete, if_neg hk, keyCount]
      omega

theorem regLookup_mapDelete_self (m : List (String × Nat)) (k : String) :
    regLookup (mapDelete m k) k = none := by
  induction m with
  | nil => simp [mapDelete, regLookup]
  | cons p rest ih =>
    obtain ⟨k1, v1⟩ := p
    by_cases hk : k1 = k
    · simp only [mapDelete, if_pos hk, ih]
    · simp only [mapDelete, if_neg hk, regLookup, if_neg hk, ih]

theorem mem_mapDelete {m : List (String × Nat)} {k : String} {p : String × Nat}
    (h : p ∈ mapDelete m k) : p ∈ m := by
  induction m with
  | nil => simp [mapDelete] at h
  | cons q rest ih =>
    obtain ⟨k1, v1⟩ := q
    by_cases hk : k1 = k
    · simp only [mapDelete, if_pos hk] at h
      exact List.mem_cons_of_mem _ (ih h)
    · simp only [mapDelete, if_neg hk, List.mem_cons] at h
      rcases h with h | h
      · simp [h]
      · exact List.mem_cons_of_mem _ (ih h)

theorem mem_mapSet {m : List (String × Nat)} {k : String} {v : Nat} {p : String × Nat}
    (h : p ∈ mapSet m k v) : p ∈ m ∨ p = (k, v) := by
  induction m with
  | nil =>
    simp only [mapSet, List.mem_singleton] at h
    right; exact h
  | cons q rest ih =>
    obtain ⟨k1, v1⟩ := q
    by_cases hk : k1 = k
    · simp only [mapSet, if_pos hk, List.mem_cons] at h
      rcases h with h | h
      · right; exact h
      · left; exact List.mem_cons_of_mem _ h
    · simp only [mapSet, if_neg hk, List.mem_cons] at h
      rcases h with h | h
      · left; simp [h]
      · rcases ih h with h1 | h1
        · left; exact List.mem_cons_of_mem _ h1
        · right; exact h1

theorem startsWithL_iff (n h : List Char) :
    startsWithL n h = true ↔ ∃ r, h = n ++ r := by
  induction n generalizing h with
  | nil => simp [startsWithL]
  | cons a as ih =>
    cases h with
    | nil =>
      simp only [startsWithL]
      constructor
      · intro hc; cases hc
      · rintro ⟨r, hr⟩; cases hr
    | cons b bs =>
      simp only [startsWithL, Bool.and_eq_true, decide_eq_true_eq, ih]
      constructor
      · rintro ⟨hab, r, hr⟩
        exact ⟨r, by simp [hab, hr]⟩
      · rintro ⟨r, hr⟩
        injection hr with h1 h2
        exact ⟨h1.symm, r, h2⟩

theorem listIsSegment_iff (n h : List Char) :
    listIsSegment n h = true ↔ SegmentOf n h := by
  induction h with
  | nil =>
    simp only [listIsSegment, startsWithL_iff, SegmentOf]
    constructor
    · rintro ⟨r, hr⟩
      exact ⟨[], r, by simp [hr]⟩
    · rintro ⟨l, r, hlr⟩
      have := hlr.symm
      rw [List.append_eq_nil] at this
      obtain ⟨h1, h2⟩ := this
      rw [List.append_eq_nil] at h2
      exact ⟨[], by simp [h2.1]⟩
  | cons b rest ih =>
    simp only [listIsSegment, Bool.or_eq_true, startsWithL_iff, ih, SegmentOf]
    constructor
    · rintro (⟨r, hr⟩ | ⟨l, r, hlr⟩)
      · exact ⟨[], r, by simp [hr]⟩
      · exact ⟨b :: l, r, by simp [hlr]⟩
    · rintro ⟨l, r, hlr⟩
      cases l with
      | nil =>
        left; exact ⟨r, by simpa using hlr⟩
      | cons c cl =>
        right
        injection hlr with h1 h2
        exact ⟨cl, r, h2⟩

/-! ## PaymentScheduler invariants

`RegOK`: the Map registry holds at most one entry per key.  `RegBound`:
every uid stored in the registry was minted before the current counter.
`NeverFiresZero`: once handle 0 (the first job ever scheduled) is
cancelled, it stays cancelled and no capture tagged with it ever appears. -/

def RegOK (s : PSState) : Prop :=
  ∀ k, keyCount s.registry k ≤ 1

def RegBound (s : PSState) : Prop :=
  ∀ p, p ∈ s.registry → p.2 < s.nextUid

def NeverFiresZero (s : PSState) : Prop :=
  (∀ j, j ∈ s.arena → j.uid = 0 → j.cancelled = true) ∧
  0 < s.nextUid ∧
  (∀ c, c ∈ s.captures → ¬ c.1 = 0)

theorem regOK_psInit : RegOK psInit := by
  intro k; simp [psInit, keyCount]

theorem regBound_psInit : RegBound psInit := by
  intro p hp; simp [psInit] at hp

theorem regOK_psStep {s : PSState} (h : RegOK s) (op : PSOp) :
    RegOK (psStep s op) := by
  cases op with
  | schedule oid d =>
    intro k
    simp only [psStep, schedulePayment]
    by_cases hk : k = mkJobId oid
    · subst hk
      exact keyCount_mapSet_self _ (h _)
    · rw [keyCount_mapSet_ne _ hk]
      exact h _
  | cancel oid =>
    intro k
    simp only [psStep, cancelScheduledPayment]
    cases hl : regLookup s.registry (mkJobId oid) with
    | some uid =>
      simp only
      exact le_trans (keyCount_mapDelete_le _ _ _) (h _)
    | none => exact h _
  | fire uid =>
    intro k
    simp only [psStep, psFire]
    cases hf : s.arena.find? (fun j => decide (j.uid = uid)) with
    | some j =>
      by_cases hc : (j.cancelled || j.fired) = true
      · simp only [hc, if_true]; exact h _
      · simp only [hc]; simp only [if_false, Bool.false_eq_true]; exact h _
    | none => exact h _
  | fireDone uid =>
    intro k
    simp only [psStep, psFireDone]
    cases hf : s.arena.find? (fun j => decide (j.uid = uid)) with
    | some j =>
      exact le_trans (keyCount_mapDelete_le _ _ _) (h _)
    | none => exact h _

theorem regBound_psStep {s : PSState} (h : RegBound s) (op : PSOp) :
    RegBound (psStep s op) := by
  cases op with
  | schedule oid d =>
    intro p hp
    simp only [psStep, schedulePayment] at hp ⊢
    rcases mem_mapSet hp with h1 | h1
    · exact lt_trans (h _ h1) (Nat.lt_succ_self _)
    · subst h1; exact Nat.lt_succ_self _
  | cancel oid =>
    intro p hp
    simp only [psStep, cancelScheduledPayment] at hp ⊢
    cases hl : regLookup s.registry (mkJobId oid) with
    | some uid =>
      rw [hl] at hp
      exact h _ (mem_mapDelete hp)
    | none =>
      rw [hl] at hp
      exact h _ hp
  | fire uid =>
    intro p hp
    simp only [psStep, psFire] at hp ⊢
    cases hf : s.arena.find? (fun j => decide (j.uid = uid)) with
    | some j =>
      rw [hf] at hp
      by_cases hc : (j.cancelled || j.fired) = true
      · simp only [hc, if_true] at hp ⊢
        exact h _ hp
      · simp only [hc, if_false, Bool.false_eq_true] at hp ⊢
        exact h _ hp
    | none =>
      rw [hf] at hp
      exact h _ hp
  | fireDone uid =>
    intro p hp
    simp only [psStep, psFireDone] at hp ⊢
    cases hf : s.arena.find? (fun j => decide (j.uid = uid)) with
    | some j =>
      rw [hf] at hp
      exact h _ (mem_mapDelete hp)
    | none =>
      rw [hf] at hp
      exact h _ hp

theorem psInv_run {s : PSState} (h1 : RegOK s) (h2 : RegBound s)
    (ops : List PSOp) : RegOK (psRun s ops) ∧ RegBound (psRun s ops) := by
  induction ops generalizing s with
  | nil => exact ⟨h1, h2⟩
  | cons op rest ih =>
    have := ih (regOK_psStep h1 op) (regBound_psStep h2 op)
    simpa [psRun, List.foldl] using this

theorem neverFiresZero_psStep {s : PSState} (h : NeverFiresZero s) (op : PSOp) :
    NeverFiresZero (psStep s op) := by
  obtain ⟨hA, hN, hC⟩ := h
  cases op with
  | schedule oid d =>
    refine ⟨?_, ?_, ?_⟩
    · intro j hj hj0
      simp only [psStep, schedulePayment] at hj
      rcases List.mem_append.mp hj with hj1 | hj2
      · cases hl : regLookup s.registry (mkJobId oid) with
        | some uid =>
          rw [hl] at hj1
          rcases List.mem_map.mp hj1 with ⟨j0, hj0m, rfl⟩
          by_cases he : j0.uid = uid
          · simp [he]
          · simp only [he, if_false] at hj0 ⊢
            exact hA _ hj0m hj0
        | none =>
          rw [hl] at hj1
          exact hA _ hj1 hj0
      · simp only [List.mem_singleton] at hj2
        subst hj2
        simp only at hj0
        omega
    · simp only [psStep, schedulePayment]
      omega
    · intro c hc1
      simp only [psStep, schedulePayment] at hc1
      exact hC _ hc1
  | cancel oid =>
    cases hl : regLookup s.registry (mkJobId oid) with
    | some uid =>
      refine ⟨?_, ?_, ?_⟩
      · intro j hj hj0
        simp only [psStep, cancelScheduledPayment, hl] at hj
        rcases List.mem_map.mp hj with ⟨j0, hj0m, rfl⟩
        by_cases he : j0.uid = uid
        · simp [he]
        · simp only [he, if_false] at hj0 ⊢
          exact hA _ hj0m hj0
      · simpa [psStep, cancelScheduledPayment, hl] using hN
      · intro c hc1
        simp only [psStep, cancelScheduledPayment, hl] at hc1
        exact hC _ hc1
    | none =>
      refine ⟨?_, ?_, ?_⟩
      · intro j hj hj0
        simp only [psStep, cancelScheduledPayment, hl] at hj
        exact hA _ hj hj0
      · simpa [psStep, cancelScheduledPayment, hl] using hN
      · intro c hc1
        simp only [psStep, cancelScheduledPayment, hl] at hc1
        exact hC _ hc1
  | fire uid =>
    cases hf : s.arena.find? (fun j => decide (j.uid = uid)) with
    | none =>
      refine ⟨?_, ?_, ?_⟩ <;> simp only [psStep, psFire, hf]
      · exact hA
      · exact hN
      · exact hC
    | some j =>
      by_cases hc : (j.cancelled || j.fired) = true
      · refine ⟨?_, ?_, ?_⟩ <;> simp only [psStep, psFire, hf, hc, if_true]
        · exact hA
        · exact hN
        · exact hC
      · have hjmem : j ∈ s.arena := List.mem_of_find?_eq_some hf
        have hjuid : j.uid = uid := by
          have := List.find?_some hf
          simpa using this
        have hjne : ¬ j.uid = 0 := by
          intro h0
          have := hA j hjmem h0
          simp [this] at hc
        refine ⟨?_, ?_, ?_⟩ <;>
          simp only [psStep, psFire, hf, hc, if_false, Bool.false_eq_true]
        · intro j1 hj1 hj10
          rcases List.mem_map.mp hj1 with ⟨j0, hj0m, rfl⟩
          by_cases he : j0.uid = uid
          · exfalso
            rw [if_pos he] at hj10
            exact hjne (hjuid.trans (he.symm.trans hj10))
          · rw [if_neg he] at hj10 ⊢
            exact hA _ hj0m hj10
        · exact hN
        · intro c hc1
          rcases List.mem_append.mp hc1 with hc2 | hc2
          · exact hC _ hc2
          · simp only [List.mem_singleton] at hc2
            subst hc2
            simpa using hjne
  | fireDone uid =>
    cases hf : s.arena.find? (fun j => decide (j.uid = uid)) with
    | none =>
      refine ⟨?_, ?_, ?_⟩ <;> simp only [psStep, psFireDone, hf]
      · exact hA
      · exact hN
      · exact hC
    | some j =>
      refine ⟨?_, ?_, ?_⟩ <;> simp only [psStep, psFireDone, hf]
      · exact hA
      · exact hN
      · exact hC

theorem neverFiresZero_psRun {s : PSState} (h : NeverFiresZero s)
    (ops : List PSOp) : NeverFiresZero (psRun s ops) := by
  induction ops generalizing s with
  | nil => exact h
  | cons op rest ih =>
    have := ih (neverFiresZero_psStep h op)
    simpa [psRun, List.foldl] using this

theorem c5_base (oid : String) (d1 d2 : Int) :
    NeverFiresZero (psStep (psStep psInit (PSOp.schedule oid d1)) (PSOp.schedule oid d2)) ∧
    ∃ j, j ∈ (psStep (psStep psInit (PSOp.schedule oid d1)) (PSOp.schedule oid d2)).arena ∧
      j.uid = 0 ∧ j.cancelled = true := by
  have h1 : psStep psInit (PSOp.schedule oid d1) =
      ⟨[(mkJobId oid, 0)], [⟨0, oid, d1, false, false⟩], [oid], 1, []⟩ := by
    simp [psStep, schedulePayment, psInit, regLookup, mapSet, setAdd]
  have h2 : psStep (psStep psInit (PSOp.schedule oid d1)) (PSOp.schedule oid d2) =
      ⟨[(mkJobId oid, 1)], [⟨0, oid, d1, true, false⟩, ⟨1, oid, d2, false, false⟩],
        [oid], 2, []⟩ := by
    rw [h1]
    simp [psStep, schedulePayment, regLookup, mapSet, setAdd]
  rw [h2]
  refine ⟨⟨?_, Nat.zero_lt_two, ?_⟩, ?_⟩
  · intro j hj h0
    simp only [List.mem_cons, List.mem_singleton] at hj
    rcases hj with rfl | rfl | hj
    · rfl
    · cases h0
    · cases hj
  · intro c hc
    simp at hc
  · exact ⟨⟨0, oid, d1, true, false⟩, by simp, rfl, rfl⟩

/-- C1 counterexample: in the ShopifyService setTimeout scheduler, two
schedule calls for the same orderId leave two live (timer-armed) jobs for
that order in the registry — the prior job is not cancelled. -/
theorem c1_counterexample :
    ((svcRun svcInit [SvcEvent.schedule "A" "t1" 100,
        SvcEvent.schedule "A" "t2" 200]).jobs.countP
      (fun j => decide (j.orderId = "A"))) = 2 ∧
    ((svcRun svcInit [SvcEvent.schedule "A" "t1" 100,
        SvcEvent.schedule "A" "t2" 200]).jobs.all (fun j => j.timerPending)) = true := by
  decide

/-- C1 (amended): in the PaymentScheduler, after any sequence of operations
from the initial state, the Map registry holds at most one job per orderId,
and a schedule call for an order whose jobId is currently mapped to handle
`uid` cancels that handle; the ShopifyService scheduler does not enforce
this (see the counterexample). -/
theorem c1_theorem (ops : List PSOp) (oid : String) (d : Int) (uid : Nat) :
    keyCount (psRun psInit ops).registry (mkJobId oid) ≤ 1 ∧
    (regLookup (psRun psInit ops).registry (mkJobId oid) = some uid →
      ∀ j, j ∈ (psStep (psRun psInit ops) (PSOp.schedule oid d)).arena →
        j.uid = uid → j.cancelled = true) := by
  obtain ⟨hok, hbd⟩ := psInv_run regOK_psInit regBound_psInit ops
  refine ⟨hok _, ?_⟩
  intro hl j hj hju
  have huid : uid < (psRun psInit ops).nextUid := hbd _ (regLookup_mem hl)
  simp only [psStep, schedulePayment] at hj
  rcases List.mem_append.mp hj with hj1 | hj2
  · rw [hl] at hj1
    rcases List.mem_map.mp hj1 with ⟨j0, hj0m, rfl⟩
    by_cases he : j0.uid = uid
    · rw [if_pos he]
    · rw [if_neg he] at hju ⊢
      exact absurd hju he
  · simp only [List.mem_singleton] at hj2
    subst hj2
    have : (psRun psInit ops).nextUid = uid := hju
    omega

/-- C1 witness: a concrete run — after scheduling order "A" once, the
registry holds exactly one entry, and re-scheduling "A" cancels handle 0. -/
theorem c1_witness :
    keyCount (psRun psInit [PSOp.schedule "A" 3]).registry (mkJobId "A") ≤ 1 ∧
    (∀ j, j ∈ (psStep (psRun psInit [PSOp.schedule "A" 3]) (PSOp.schedule "A" 7)).arena →
      j.uid = 0 → j.cancelled = true) :=
  ⟨(c1_theorem [PSOp.schedule "A" 3] "A" 7 0).1,
   (c1_theorem [PSOp.schedule "A" 3] "A" 7 0).2 (by decide)⟩

/-- C5 counterexample: in the ShopifyService scheduler, after re-scheduling
order "X", the first job's timer still fires and invokes capture with the
first transaction id. -/
theorem c5_counterexample :
    ((svcRun svcInit [SvcEvent.schedule "X" "tx1" 10, SvcEvent.schedule "X" "tx2" 10,
        SvcEvent.advance 10, SvcEvent.timerFire 0]).captureLog.countP
      (fun c => decide (c.juid = 0 ∧ c.transactionId = "tx1"))) = 1 := by
  decide

/-- C5 (amended): in the PaymentScheduler, scheduling a second job for an
order cancels the first job's handle (handle 0), and in every subsequent
run no capture tagged with handle 0 is ever invoked — the first job's
capture never fires.  In the ShopifyService scheduler the first job's
capture can still fire (see the counterexample). -/
theorem c5_theorem (oid : String) (d1 d2 : Int) (ops : List PSOp) :
    (∃ j, j ∈ (psStep (psStep psInit (PSOp.schedule oid d1)) (PSOp.schedule oid d2)).arena ∧
      j.uid = 0 ∧ j.cancelled = true) ∧
    ((psRun (psStep (psStep psInit (PSOp.schedule oid d1)) (PSOp.schedule oid d2)) ops).captures.all
      (fun c => decide (¬ c.1 = 0))) = true := by
  obtain ⟨hbase, hex⟩ := c5_base oid d1 d2
  refine ⟨hex, ?_⟩
  obtain ⟨-, -, hC⟩ := neverFiresZero_psRun hbase ops
  simp only [List.all_eq_true, decide_eq_true_eq]
  exact fun c hc => hC c hc

/-- C6: cancelScheduledPayment returns true exactly when a job is
registered for the order; afterwards no registry entry remains for the
order; when none was registered the whole state is untouched (and false is
returned, no exception is modelled because the function is total); when one
was registered, its node-schedule handle has been cancelled. -/
theorem c6_theorem (s : PSState) (oid : String) :
    (cancelScheduledPayment s oid).1 = (regLookup s.registry (mkJobId oid)).isSome ∧
    regLookup ((cancelScheduledPayment s oid).2).registry (mkJobId oid) = none ∧
    (regLookup s.registry (mkJobId oid) = none → (cancelScheduledPayment s oid).2 = s) ∧
    (∀ uid, regLookup s.registry (mkJobId oid) = some uid →
      ∀ j, j ∈ ((cancelScheduledPayment s oid).2).arena → j.uid = uid → j.cancelled = true) := by
  cases hl : regLookup s.registry (mkJobId oid) with
  | none =>
    refine ⟨?_, ?_, ?_, ?_⟩ <;> simp [cancelScheduledPayment, hl]
  | some v =>
    refine ⟨?_, ?_, ?_, ?_⟩
    · simp [cancelScheduledPayment, hl]
    · simp [cancelScheduledPayment, hl, regLookup_mapDelete_self]
    · simp [hl]
    · intro uid huid j hj hju
      injection huid with hv
      subst hv
      simp only [cancelScheduledPayment, hl] at hj
      rcases List.mem_map.mp hj with ⟨j0, hj0m, rfl⟩
      by_cases he : j0.uid = v
      · rw [if_pos he]
      · rw [if_neg he] at hju ⊢
        exact absurd hju he

/-- C6 witness: cancelling order "1002" after scheduling it returns true
and empties its registry entry; cancelling on the empty scheduler returns
false and changes nothing. -/
theorem c6_witness :
    (cancelScheduledPayment (psStep psInit (PSOp.schedule "1002" 5)) "1002").1 = true ∧
    regLookup ((cancelScheduledPayment (psStep psInit (PSOp.schedule "1002" 5)) "1002").2).registry
      (mkJobId "1002") = none ∧
    (cancelScheduledPayment psInit "1002").1 = false ∧
    (cancelScheduledPayment psInit "1002").2 = psInit := by
  refine ⟨?_, ?_, ?_, ?_⟩
  · exact ((c6_theorem (psStep psInit (PSOp.schedule "1002" 5)) "1002").1).trans (by decide)
  · exact (c6_theorem (psStep psInit (PSOp.schedule "1002" 5)) "1002").2.1
  · exact ((c6_theorem psInit "1002").1).trans (by decide)
  · exact (c6_theorem psInit "1002").2.2.1 (by decide)

/-- C7 counterexample: a schedule call with empty orderId and empty
transactionId is not rejected — it creates a job in each scheduler's
registry. -/
theorem c7_counterexample :
    (svcStep svcInit (SvcEvent.schedule "" "" 5)).jobs.length = 1 ∧
    keyCount (psStep psInit (PSOp.schedule "" 0)).registry (mkJobId "") = 1 := by
  decide

/-- C7 (amended): neither scheduler validates its arguments: every schedule
call — in particular one with empty orderId or transactionId — installs a
job (the array grows by one; the Map gains an entry mapped to the fresh
handle) and no error path exists. -/
theorem c7_theorem (s : SvcState) (oid tx : String) (d : Int) (s1 : PSState)
    (oid1 : String) (d1 : Int) :
    (svcStep s (SvcEvent.schedule oid tx d)).jobs.length = s.jobs.length + 1 ∧
    regLookup (psStep s1 (PSOp.schedule oid1 d1)).registry (mkJobId oid1) = some s1.nextUid := by
  constructor
  · simp [svcStep, schedulePaymentCapture]
  · simp only [psStep, schedulePayment]
    exact regLookup_mapSet_self _ _ _

/-- C2: the dispatch claim is not exclusive.  Concrete run: order 1001 is
scheduled with a 1000 ms delay; at t = 1000 its timer fires and invokes
capture (still in flight); the next sweep tick sees scheduledTime <= now
with job.jobId still truthy (clearTimeout never nulls it and the job is
only removed on success), so it invokes capture again: two capture
invocations for the one job, where the claim requires exactly one. -/
theorem c2_theorem :
    ((svcRun svcInit [SvcEvent.schedule "1001" "tx-A" 1000, SvcEvent.advance 1000,
        SvcEvent.timerFire 0, SvcEvent.sweep]).captureLog.countP
      (fun c => decide (c.juid = 0))) = 2 := by
  decide

/-- C3 counterexample: order 1003's capture fails at its due time; the job
is still the sole entry of the list() output afterwards, and the sweep one
minute later re-invokes capture for it (a second invocation = an automatic
retry). -/
theorem c3_counterexample :
    ((getScheduledJobs (svcRun svcInit [SvcEvent.schedule "1003" "tx-C" 1000,
        SvcEvent.advance 1000, SvcEvent.timerFire 0, SvcEvent.captureFail 0])).map
      (fun s => s.orderId)) = ["1003"] ∧
    ((svcRun svcInit [SvcEvent.schedule "1003" "tx-C" 1000, SvcEvent.advance 1000,
        SvcEvent.timerFire 0, SvcEvent.captureFail 0, SvcEvent.advance 60000,
        SvcEvent.sweep]).captureLog.countP (fun c => decide (c.juid = 0))) = 2 := by
  decide

/-- C3 (amended): a failed capture leaves the jobs array — and hence the
list() output — unchanged (the catch branch only logs), and any job that is
overdue at a sweep tick gets a further capture invocation logged by that
sweep: failed captures are automatically re-attempted rather than removed. -/
theorem c3_theorem (s : SvcState) (uid : Nat) (j : SvcJob) :
    (svcStep s (SvcEvent.captureFail uid)).jobs = s.jobs ∧
    getScheduledJobs (svcStep s (SvcEvent.captureFail uid)) = getScheduledJobs s ∧
    (j ∈ s.jobs → isDue s.now j = true →
      s.captureLog.countP (fun c => decide (c.juid = j.uid)) + 1 ≤
        (svcStep s SvcEvent.sweep).captureLog.countP (fun c => decide (c.juid = j.uid))) := by
  refine ⟨rfl, rfl, ?_⟩
  intro hmem hdue
  simp only [svcStep, List.countP_append]
  have hjf : j ∈ s.jobs.filter (isDue s.now) := List.mem_filter.mpr ⟨hmem, hdue⟩
  have h1 : 0 < ((s.jobs.filter (isDue s.now)).map
      (fun j => (⟨j.uid, j.orderId, j.transactionId⟩ : CaptureCall))).countP
      (fun c => decide (c.juid = j.uid)) :=
    List.countP_pos_iff.mpr
      ⟨⟨j.uid, j.orderId, j.transactionId⟩, List.mem_map_of_mem _ hjf, by simp⟩
  omega

/-- C3 witness: concrete instantiation — a failing capture for the overdue
job of order 1003 removes nothing, and the sweep logs a strictly larger
capture count for it. -/
theorem c3_witness :
    ((svcStep (svcRun svcInit [SvcEvent.schedule "1003" "tx-C" (-5)])
        (SvcEvent.captureFail 0)).jobs =
      (svcRun svcInit [SvcEvent.schedule "1003" "tx-C" (-5)]).jobs) ∧
    (getScheduledJobs (svcStep (svcRun svcInit [SvcEvent.schedule "1003" "tx-C" (-5)])
        (SvcEvent.captureFail 0)) =
      getScheduledJobs (svcRun svcInit [SvcEvent.schedule "1003" "tx-C" (-5)])) ∧
    ((svcRun svcInit [SvcEvent.schedule "1003" "tx-C" (-5)]).captureLog.countP
        (fun c => decide (c.juid = 0)) + 1 ≤
      (svcStep (svcRun svcInit [SvcEvent.schedule "1003" "tx-C" (-5)])
        SvcEvent.sweep).captureLog.countP (fun c => decide (c.juid = 0))) := by
  have h := c3_theorem (svcRun svcInit [SvcEvent.schedule "1003" "tx-C" (-5)]) 0
    ⟨0, "1003", "tx-C", -5, 0, true, true⟩
  exact ⟨h.1, h.2.1, h.2.2 (by decide) (by decide)⟩

/-- C4: a job scheduled with a non-positive delay (dueAt in the past) is
immediately overdue, and the very next sweep tick dispatches it — a capture
invocation for it is logged — without any timer-fire event occurring. -/
theorem c4_theorem (s : SvcState) (oid tx : String) (d : Int) (h : d ≤ 0) :
    ∃ c, c ∈ (svcStep (svcStep s (SvcEvent.schedule oid tx d)) SvcEvent.sweep).captureLog ∧
      c.juid = s.nextUid ∧ c.orderId = oid ∧ c.transactionId = tx := by
  refine ⟨⟨s.nextUid, oid, tx⟩, ?_, rfl, rfl, rfl⟩
  simp only [svcStep, schedulePaymentCapture]
  apply List.mem_append_right
  have hdue : isDue s.now (newCaptureJob s oid tx d) = true := by
    simp only [isDue, newCaptureJob, Bool.and_eq_true, decide_eq_true_eq]
    exact ⟨by omega, trivial⟩
  have hmem : newCaptureJob s oid tx d ∈
      (s.jobs ++ [newCaptureJob s oid tx d]).filter (isDue s.now) :=
    List.mem_filter.mpr ⟨List.mem_append_right _ (List.mem_singleton.mpr rfl), hdue⟩
  exact List.mem_map_of_mem _ hmem

/-- C4 witness: order 1004 scheduled 10 s overdue is captured by the next
sweep. -/
theorem c4_witness :
    ∃ c, c ∈ (svcStep (svcStep svcInit (SvcEvent.schedule "1004" "tx-D" (-10000)))
        SvcEvent.sweep).captureLog ∧
      c.juid = svcInit.nextUid ∧ c.orderId = "1004" ∧ c.transactionId = "tx-D" :=
  c4_theorem svcInit "1004" "tx-D" (-10000) (by decide)

/-- C8 counterexample: an overdue job's listed time remaining is negative
(-10000 ms), not clamped at zero. -/
theorem c8_counterexample :
    ((getScheduledJobs (svcRun svcInit [SvcEvent.schedule "V" "tx" (-10000)])).map
      (fun s => s.timeLeftMs)) = [(-10000 : Int)] ∧
    ((getScheduledJobs (svcRun svcInit [SvcEvent.schedule "V" "tx" (-10000)])).all
      (fun s => decide (0 ≤ s.timeLeftMs))) = false := by
  decide

/-- C8 (amended): the listing returns, for every job in the array, its
orderId, its scheduledTime (dueAt) and a time remaining equal to
dueAt - now with no clamping — in particular it is strictly negative for an
overdue job. -/
theorem c8_theorem (s : SvcState) (j : SvcJob) (h : j ∈ s.jobs) :
    ∃ summ, summ ∈ getScheduledJobs s ∧ summ.orderId = j.orderId ∧
      summ.scheduledTime = j.scheduledTime ∧
      summ.timeLeftMs = j.scheduledTime - s.now ∧
      (j.scheduledTime < s.now → summ.timeLeftMs < 0) := by
  refine ⟨⟨j.orderId, j.scheduledTime, j.scheduledTime - s.now⟩, ?_, rfl, rfl, rfl, ?_⟩
  · exact List.mem_map_of_mem _ h
  · intro hov
    show j.scheduledTime - s.now < 0
    omega

/-- C8 witness: concrete instantiation at an overdue job. -/
theorem c8_witness :
    ∃ summ, summ ∈ getScheduledJobs (svcRun svcInit [SvcEvent.schedule "V" "tx" (-3)]) ∧
      summ.orderId = "V" ∧ summ.scheduledTime = -3 ∧ summ.timeLeftMs = -3 - 0 ∧
      (-3 < (0 : Int) → summ.timeLeftMs < 0) := by
  have h := c8_theorem (svcRun svcInit [SvcEvent.schedule "V" "tx" (-3)])
    ⟨0, "V", "tx", -3, 0, true, true⟩ (by decide)
  exact h

theorem noteAttrCheck_iff (l : Option (List NoteAttr)) (f : String) :
    noteAttrCheck l f = true ↔
      ∃ a, a ∈ l.getD [] ∧ a.name = "payment_flag" ∧ a.value = f := by
  cases l with
  | none => simp [noteAttrCheck]
  | some attrs =>
    simp [noteAttrCheck, List.find?_isSome, Bool.and_eq_true, decide_eq_true_eq]

theorem keyedAttrCheck_iff (l : Option (List KeyedAttr)) (f : String) :
    keyedAttrCheck l f = true ↔
      ∃ a, a ∈ l.getD [] ∧ a.key = "payment_flag" ∧ a.value = f := by
  cases l with
  | none => simp [keyedAttrCheck]
  | some attrs =>
    simp [keyedAttrCheck, List.find?_isSome, Bool.and_eq_true, decide_eq_true_eq]

theorem tagsCheck_iff (t : Option String) (f : String) :
    tagsCheck t f = true ↔
      ∃ tags, t = some tags ∧ ¬ tags = "" ∧ SegmentOf f.toList tags.toList := by
  cases t with
  | none => simp [tagsCheck]
  | some tags =>
    simp [tagsCheck, strIncludes, listIsSegment_iff, Bool.and_eq_true, decide_eq_true_eq]

/-- C9: hasFlag is null-safe — a missing order yields false — and it
returns true exactly when the flag is found in one of the four checked
locations: a note attribute, a metafield, the tags string (as a substring
of a non-empty tags value), or a custom attribute, each matched the way the
source matches it. -/
theorem c9_theorem (ord : Order) (f : String) :
    hasFlag none f = false ∧
    (hasFlag (some ord) f = true ↔
      FlagInNoteAttributes ord f ∨ FlagInMetafields ord f ∨ FlagInTags ord f ∨
        FlagInCustomAttributes ord f) := by
  refine ⟨rfl, ?_⟩
  simp only [hasFlag, Bool.or_eq_true, noteAttrCheck_iff, keyedAttrCheck_iff, tagsCheck_iff,
    FlagInNoteAttributes, FlagInMetafields, FlagInTags, FlagInCustomAttributes]
  simp [or_assoc]

/-- C9 witness: a concrete order carrying payment_flag = pay_later in its
note attributes is recognised. -/
theorem c9_witness :
    hasFlag (some ⟨some [⟨"payment_flag", "pay_later"⟩], none, none, none⟩) "pay_later" = true :=
  (c9_theorem ⟨some [⟨"payment_flag", "pay_later"⟩], none, none, none⟩ "pay_later").2.mpr
    (Or.inl ⟨⟨"payment_flag", "pay_later"⟩, by simp, rfl, rfl⟩)

/-- C10: when fetching the order's transactions fails (for example with a
permission error), getAuthorizedTransaction swallows the error and returns
null, and capturePaymentImmediately consequently returns null successfully
with zero capture calls made. -/
theorem c10_theorem (env : ShopifyEnv) (oid e : String)
    (h : env.transactionsResult oid = .error e) :
    getAuthorizedTransaction env oid = none ∧
    (capturePaymentImmediately env oid).result = .ok none ∧
    (capturePaymentImmediately env oid).captureCalls = 0 := by
  have hga : getAuthorizedTransaction env oid = none := by
    simp [getAuthorizedTransaction, getOrderTransactions, h]
  refine ⟨hga, ?_, ?_⟩ <;> simp [capturePaymentImmediately, hga]

/-- C10 witness: a platform client that always denies transaction reads. -/
theorem c10_witness :
    getAuthorizedTransaction ⟨fun _ => .error "403", fun _ _ => .error "x"⟩ "99" = none ∧
    (capturePaymentImmediately ⟨fun _ => .error "403", fun _ _ => .error "x"⟩ "99").result =
      .ok none ∧
    (capturePaymentImmediately ⟨fun _ => .error "403", fun _ _ => .error "x"⟩ "99").captureCalls = 0 :=
  c10_theorem ⟨fun _ => .error "403", fun _ _ => .error "x"⟩ "99" "403" rfl

end ShopifyPayment
